import Mathlib

/-!
# Verification of `docetl/operations/map.py`

A shallow embedding of the `MapOperation` and `ParallelMapOperation` classes
(single- and multi-prompt map operators) together with proofs of the spec's
claims about them.

Modelling conventions:

* Python values that flow through configurations and records are embedded as
  the inductive type `Value` (strings, integers, booleans, lists, string-keyed
  dicts, `None`).
* A Python dict is embedded as an association list with unique keys; reads use
  first-binding lookup, which coincides with dict lookup on duplicate-free
  lists.
* External collaborators (the Jinja2 engine, `parse_llm_response`, `call_llm`,
  the pydantic core, the `Tool` classes and `gleaning_check` from modules
  outside this repository) are parameters of the embedded functions: the
  theorems quantify over them, and concrete instances are supplied only where
  a counterexample or witness needs an executable value.
* Costs reported by the model-invocation collaborator are embedded as `Rat`
  (the code manipulates them only by addition, so exact rationals are a
  faithful stand-in for the floats).
-/

set_option autoImplicit false

namespace DocetlMap

/-- Embedded Python values: the payloads of records and configurations. -/
inductive Value where
  | str (s : String)
  | int (n : Int)
  | bool (b : Bool)
  | list (l : List Value)
  | dict (d : List (String × Value))
  | none

mutual

/-- Structural equality test on embedded values (Python `==` restricted to the
shapes `Value` covers). -/
def Value.beq : Value → Value → Bool
  | .str a, .str b => a == b
  | .int a, .int b => a == b
  | .bool a, .bool b => a == b
  | .none, .none => true
  | .list a, .list b => Value.beqList a b
  | .dict a, .dict b => Value.beqDict a b
  | _, _ => false

/-- Elementwise equality of embedded value lists. -/
def Value.beqList : List Value → List Value → Bool
  | [], [] => true
  | x :: xs, y :: ys => Value.beq x y && Value.beqList xs ys
  | _, _ => false

/-- Elementwise equality of embedded dict entry lists. -/
def Value.beqDict : List (String × Value) → List (String × Value) → Bool
  | [], [] => true
  | (k₁, v₁) :: xs, (k₂, v₂) :: ys =>
      k₁ == k₂ && Value.beq v₁ v₂ && Value.beqDict xs ys
  | _, _ => false

end

instance : BEq Value := ⟨Value.beq⟩

/-- `isinstance(v, str)` on an embedded value. -/
def Value.isStr : Value → Bool
  | .str _ => true
  | _ => false

/-- Python truthiness of an embedded value (`bool(v)`): empty strings, empty
containers, zero and `None` are falsy. -/
def Value.truthy : Value → Bool
  | .str s => s != ""
  | .int n => n != 0
  | .bool b => b
  | .list l => !l.isEmpty
  | .dict d => !d.isEmpty
  | .none => false

/-- A record: a Python dict from field name to value (association list with
unique keys; lookup takes the first binding). -/
abbrev Record := List (String × Value)

/-- An operation configuration: the raw `self.config` dict. -/
abbrev Config := List (String × Value)

/-- `key in self.config`. -/
def cfgHas (cfg : Config) (k : String) : Bool :=
  (cfg.lookup k).isSome

/-- The raw `drop_keys` entry of a config, as the list Python would iterate.
The syntax checks guarantee it is a list; on any other shape this helper
returns `[]` (the theorems only use it under that guarantee or on concrete
configs). -/
def cfgDropKeys (cfg : Config) : List Value :=
  match cfg.lookup "drop_keys" with
  | some (.list l) => l
  | _ => []

/-- The raw `prompts` entry of a config as a list (shape guaranteed by
`syntax_check`; `[]` on any other shape). -/
def cfgPrompts (cfg : Config) : List Value :=
  match cfg.lookup "prompts" with
  | some (.list l) => l
  | _ => []

/-- The configured single-prompt template string (`self.config["prompt"]`,
guaranteed to be a string by `syntax_check`; `""` on any other shape). -/
def promptStrOf (cfg : Config) : String :=
  match cfg.lookup "prompt" with
  | some (.str s) => s
  | _ => ""

/-- Key projection used by both variants: keep the fields whose name is not
in `drop_keys`.  Translated from the dict comprehension
`{k: v for k, v in item.items() if k not in self.config["drop_keys"]}`
(map.py lines 153-157, 232-236, 367-372) and from the equivalent
`for key in drop_keys: item.pop(key, None)` loop (lines 443-445): both keep
exactly the entries whose (string) key is not an element of the `drop_keys`
list, preserving order. -/
def dropRecord (dks : List Value) (r : Record) : Record :=
  r.filter (fun kv => !(dks.contains (Value.str kv.1)))

/-- Python dict merge `{**a, **b}`: the keys of `a` in their original
positions with values overridden by `b` where `b` binds them, followed by the
entries of `b` whose keys are new.  `dict.update` (map.py line 435) produces
the same mapping. -/
def pyMerge (a b : Record) : Record :=
  (a.map (fun kv => (kv.1, (b.lookup kv.1).getD kv.2))) ++
    b.filter (fun kv => decide (kv.1 ∉ a.map Prod.fst))

/-- The external Jinja2 engine, abstracted: `render esc tmpl data` is the text
produced by rendering template `tmpl` in an environment whose `autoescape`
flag is `esc`, with the record `data` bound under the single template
variable `input` (both call sites in map.py pass `input=data` and nothing
else, so the variable name is fixed in the model). -/
structure JinjaEngine where
  render : Bool → String → Record → String

/-- A concrete engine faithful to Jinja2 on templates that contain no Jinja
tags: such a template renders to itself verbatim, whatever the bindings and
the autoescape flag.  Used to instantiate counterexamples and witnesses on
literal templates. -/
def literalJinja : JinjaEngine :=
  ⟨fun _ tmpl _ => tmpl⟩

/-- Translated from `render_jinja_template` (map.py lines 18-28): if the data
dict is empty return `""` without rendering; otherwise render with
`Environment(autoescape=True)` and `input=data`. -/
def render_jinja_template (engine : JinjaEngine) (template_string : String)
    (data : Record) : String :=
  if data.isEmpty then ""
  else engine.render true template_string data

/-- The prompt string the single-prompt item processor sends to the model:
`Template(self.config["prompt"]).render(input=item)` (map.py lines 164-165).
`jinja2.Template` builds its own environment with the default
`autoescape=False`, and there is no empty-record short-circuit. -/
def singlePromptPrompt (engine : JinjaEngine) (tmpl : String) (item : Record) :
    String :=
  engine.render false tmpl item

/-- The Invocation Result returned by the external `call_llm` collaborator. -/
structure LLMResult where
  response : Value
  total_cost : Rat
  validated : Bool

/-- Translated from `_process_map_item` (map.py lines 163-217), with the
external collaborators abstracted: `llm` maps the rendered prompt to the
Invocation Result (the model id, schema, tools, timeout, validation and
gleaning directives the code also passes are fixed per run and folded into
`llm`), and `parse` is `parse_llm_response(·, schema, tools)[0]`.  If the
result is validated, the parsed output is merged over the original item by
`{**item, **output}`; otherwise the item yields no record.  Either way the
result's `total_cost` is reported. -/
def processMapItem (engine : JinjaEngine) (parse : Value → Record)
    (llm : String → LLMResult) (cfg : Config) (item : Record) :
    Option Record × Rat :=
  let prompt := singlePromptPrompt engine (promptStrOf cfg) item
  let r := llm prompt
  if r.validated then
    (some (pyMerge item (parse r.response)), r.total_cost)
  else
    (Option.none, r.total_cost)

/-- Translated from `MapOperation.execute` (map.py lines 130-244).  The code
submits `_process_map_item` for every input item up front and then drains the
futures in submission order, so the pair returned for item `i` is a pure
function of that item; the embedding models the drain loop as a fold over the
per-item outcomes in input order.  Fast path (lines 149-158): when `"prompt"`
is not a key of the config and `"drop_keys"` is, the keys are dropped from
each record in order and the cost is `0.0`, with no collaborator call.  Main
path (lines 219-239): each validated record (with `drop_keys` applied when
configured) is appended in order, a `None` record is skipped, and every
item's cost is added. -/
def mapExecute (engine : JinjaEngine) (parse : Value → Record)
    (llm : String → LLMResult) (cfg : Config) (input_data : List Record) :
    List Record × Rat :=
  if !(cfgHas cfg "prompt") && cfgHas cfg "drop_keys" then
    (input_data.map (dropRecord (cfgDropKeys cfg)), 0)
  else
    (input_data.map (processMapItem engine parse llm cfg)).foldl
      (fun acc rc =>
        match rc.1 with
        | some result =>
            (acc.1 ++ [if cfgHas cfg "drop_keys" then
                         dropRecord (cfgDropKeys cfg) result
                       else result],
             acc.2 + rc.2)
        | Option.none => (acc.1, acc.2 + rc.2))
      ([], 0)

/-- The multi-prompt reassembly loop, translated from
`ParallelMapOperation.execute` (map.py lines 404-435).  One unit of work per
(item, prompt) pair is submitted, item-major/prompt-minor; the futures are
drained in submission order.  `outcome u` is the `(parsed_partial_output,
total_cost)` pair unit `u` returns from `process_prompt`; since the drain is
in submission order, the fold below over `u = 0, 1, ...` is the loop body:
add the cost, on `prompt_index == 0` initialize slot `item_index` with a copy
of the input record, then merge the partial output into the slot
(`dict.update`, i.e. `pyMerge`).  The accumulator dict keyed by item index is
embedded as a `List (Option Record)` of the input's length. -/
def parallelMainFold (outcome : Nat → Record × Rat) (input_data : List Record)
    (p : Nat) : List (Option Record) × Rat :=
  (List.range (input_data.length * p)).foldl
    (fun acc u =>
      let out := (outcome u).1
      let cost := (outcome u).2
      let total := acc.2 + cost
      let item_index := u / p
      let prompt_index := u % p
      let results :=
        if prompt_index == 0 then
          acc.1.set item_index (some (input_data.getD item_index []))
        else acc.1
      let item_result := (results.getD item_index Option.none).getD []
      (results.set item_index (some (pyMerge item_result out)), total))
    (List.replicate input_data.length Option.none, 0)

/-- The slot table and accumulated cost after the executor block of
`ParallelMapOperation.execute`: with `"prompts"` present the reassembly fold
runs over the item×prompt units (map.py lines 405-435); with it absent every
slot is a copy of its input record at zero cost (line 438). -/
def parallelFolded (outcome : Nat → Record × Rat) (cfg : Config)
    (input_data : List Record) : List (Option Record) × Rat :=
  if cfgHas cfg "prompts" then
    parallelMainFold outcome input_data (cfgPrompts cfg).length
  else (input_data.map some, 0)

/-- The slot table after the `drop_keys` pass of
`ParallelMapOperation.execute` (map.py lines 441-445): the accumulated
per-item results, each projected when `drop_keys` is configured. -/
def parallelResultsTable (outcome : Nat → Record × Rat) (cfg : Config)
    (input_data : List Record) : List (Option Record) :=
  if cfgHas cfg "drop_keys" then
    (parallelFolded outcome cfg input_data).1.map
      (Option.map (dropRecord (cfgDropKeys cfg)))
  else (parallelFolded outcome cfg input_data).1

/-- Translated from `ParallelMapOperation.execute` (map.py lines 343-451).
Fast path (lines 365-373): no `"prompts"` key and a `"drop_keys"` key drop
the keys from each record with zero cost.  Otherwise the executor block
fills the slot table (`parallelFolded`), the `drop_keys` pass projects it
(`parallelResultsTable`), and the final collection lists the filled slots in
input order (line 451, `[results[i] for i in range(len(input_data)) if i in
results]`). -/
def parallelExecute (outcome : Nat → Record × Rat) (cfg : Config)
    (input_data : List Record) : List Record × Rat :=
  if !(cfgHas cfg "prompts") && cfgHas cfg "drop_keys" then
    (input_data.map (dropRecord (cfgDropKeys cfg)), 0)
  else
    ((List.range input_data.length).filterMap
        (fun i => (parallelResultsTable outcome cfg input_data).getD i Option.none),
     (parallelFolded outcome cfg input_data).2)

/-- The exceptions the configuration-validation code can raise.
`validationError` is pydantic's `ValidationError` (raised while building the
schema object, before any explicit check runs); the other constructors are
the built-in exception classes the code raises or triggers. -/
inductive PyErr where
  | valueError (msg : String)
  | typeError (msg : String)
  | keyError (k : String)
  | validationError (field : String)
deriving DecidableEq, Repr

/-- Python subscripting `v[k]` with a string key: a dict lookup that raises
`KeyError` when the key is absent and `TypeError` when the value is not
subscriptable by strings. -/
def getItemStr (v : Value) (k : String) : Except PyErr Value :=
  match v with
  | .dict d =>
      match d.lookup k with
      | some w => .ok w
      | Option.none => .error (.keyError k)
  | _ => .error (.typeError "value is not subscriptable")

/-- Per-entry checks of `ParallelMapOperation.syntax_check`, translated from
map.py lines 290-329 in source order: the entry must be a dict; `prompt` and
`output_keys` must be present; `prompt` must be a string and `output_keys` a
non-empty list; the template must parse (`Template(...)`, modelled by the
external predicate `tp`); `model`, when present, must be a string.  The
entry index that the code interpolates into the messages is elided. -/
def parallelEntryCheck (tp : String → Bool) (e : Value) : Except PyErr Unit :=
  match e with
  | .dict d => do
      if (d.lookup "prompt").isNone then
        throw (.valueError "Missing required key prompt in prompt configuration")
      if (d.lookup "output_keys").isNone then
        throw (.valueError "Missing required key output_keys in prompt configuration")
      match d.lookup "prompt" with
      | some (.str s) =>
          (match d.lookup "output_keys" with
           | some (.list ks) => do
               if ks.isEmpty then
                 throw (.valueError "output_keys list in prompt configuration cannot be empty")
               if !(tp s) then
                 throw (.valueError "Invalid Jinja2 template in prompt configuration")
               match d.lookup "model" with
               | some (.str _) => pure ()
               | some _ =>
                   throw (.typeError "model in prompt configuration must be a string")
               | Option.none => pure ()
           | some _ =>
               throw (.typeError "output_keys in prompt configuration must be a list")
           | Option.none => pure ())
      | some _ =>
          throw (.typeError "prompt in prompt configuration must be a string")
      | Option.none => pure ()
  | _ => throw (.typeError "Prompt configuration must be a dictionary")

/-- The `for i, prompt_config in enumerate(self.config["prompts"])` loop of
the per-entry checks. -/
def parallelEntriesCheck (tp : String → Bool) : List Value → Except PyErr Unit
  | [] => .ok ()
  | e :: rest => do
      parallelEntryCheck tp e
      parallelEntriesCheck tp rest

/-- Everything `ParallelMapOperation.syntax_check` does before the coverage
check, translated from map.py lines 268-329: the `drop_keys` shape checks
(lines 268-275), the "drop_keys or prompts" requirement (lines 276-279), and
— when `"prompts"` is present — the list/non-empty checks and the per-entry
checks (lines 281-329). -/
def parallelPreChecks (tp : String → Bool) (cfg : Config) : Except PyErr Unit := do
  (match cfg.lookup "drop_keys" with
   | some v =>
       match v with
       | .list l =>
           if l.any (fun x => !x.isStr) then
             throw (.typeError "All items in drop_keys must be strings")
           else pure ()
       | _ => throw (.typeError "drop_keys in configuration must be a list of strings")
   | Option.none =>
       if !(cfgHas cfg "prompts") then
         throw (.valueError "If drop_keys is not specified, prompts must be present in the configuration")
       else pure ())
  match cfg.lookup "prompts" with
  | Option.none => pure ()
  | some v =>
      match v with
      | .list l => do
          if l.isEmpty then throw (.valueError "The prompts list cannot be empty")
          parallelEntriesCheck tp l
      | _ =>
          throw (.valueError "ParallelMapOperation requires a prompts list in the configuration")

/-- The union of all `output_keys` lists across the configured prompts
(map.py lines 333-335, `output_keys_covered`); the per-entry checks guarantee
each entry is a dict with an `output_keys` list. -/
def coveredKeys (cfg : Config) : List Value :=
  (cfgPrompts cfg).foldr
    (fun e acc =>
      (match e with
       | .dict d =>
           match d.lookup "output_keys" with
           | some (.list ks) => ks
           | _ => []
       | _ => []) ++ acc)
    []

/-- The `output.schema` dict of a config, when both lookups land on dicts. -/
def cfgSchemaDict (cfg : Config) : Option (List (String × Value)) :=
  match cfg.lookup "output" with
  | some (.dict d) =>
      match d.lookup "schema" with
      | some (.dict s) => some s
      | _ => Option.none
  | _ => Option.none

/-- The schema keys not covered by any prompt's `output_keys`
(`missing_keys = set(output_schema.keys()) - output_keys_covered`,
map.py line 337).  Set difference is embedded as a filter by membership. -/
def missingKeys (cfg : Config) : List String :=
  ((cfgSchemaDict cfg).getD []).map Prod.fst
    |>.filter (fun k => !((coveredKeys cfg).contains (Value.str k)))

/-- The coverage check of `ParallelMapOperation.syntax_check` (map.py lines
331-341): read `self.config["output"]["schema"]` (raising `KeyError` when
absent), compute the uncovered schema keys, and reject when any exist. -/
def parallelCoverageCheck (cfg : Config) : Except PyErr Unit := do
  let out ←
    match cfg.lookup "output" with
    | some v => pure v
    | Option.none => throw (.keyError "output")
  let sch ← getItemStr out "schema"
  match sch with
  | .dict _ =>
      if missingKeys cfg ≠ [] then
        throw (.valueError "The following output schema keys are not covered by any prompt")
      else pure ()
  | _ => throw (.typeError "schema object has no keys method")

/-- Translated from `ParallelMapOperation.syntax_check` (map.py lines
260-341): the pre-coverage checks, then — still inside the
`if "prompts" in self.config` block — the coverage check. -/
def parallelSyntaxCheck (tp : String → Bool) (cfg : Config) : Except PyErr Unit := do
  parallelPreChecks tp cfg
  if cfgHas cfg "prompts" then parallelCoverageCheck cfg else pure ()

/-- Translated from `MapOperation.schema.validate_drop_keys` (map.py lines
51-55): the body of the `field_validator`, which wraps a bare string into a
one-element list and passes everything else through. -/
def validate_drop_keys (v : Value) : Value :=
  match v with
  | .str s => .list [.str s]
  | _ => v

/-- The `drop_keys` field pipeline of `MapOperation.schema`, modelled from
pydantic v2's documented semantics (pydantic is an external library):
`field_validator` without a `mode` argument registers an *after*-validator,
so the declared type `Optional[List[str]]` is validated first — `None` and a
list of strings pass, anything else (a bare string included) raises
`ValidationError` — and only then does `validate_drop_keys` run on the
already-typed value.  A typed value is never a bare string, so the
normalizing branch of `validate_drop_keys` is unreachable here. -/
def dropKeysFieldValidate (raw : Option Value) : Except PyErr (Option Value) := do
  let typed ←
    match raw with
    | Option.none => pure Option.none
    | some Value.none => pure Option.none
    | some (.list l) =>
        if l.any (fun x => !x.isStr) then throw (.validationError "drop_keys")
        else pure (some (Value.list l))
    | some _ => throw (.validationError "drop_keys")
  pure (typed.map validate_drop_keys)

/-- The typed view `MapOperation.schema` produces: the fields
`syntax_check` reads, each kept as the underlying value (shape guaranteed by
validation).  The remaining optional fields of the class and the
`BaseOperation.schema` base fields (a module outside this repository) do not
influence any claim and are elided. -/
structure MapSchema where
  output : Option Value
  prompt : Option Value
  model : Option Value
  tools : Option Value
  drop_keys : Option Value

/-- Pydantic validation `self.schema(**self.config)` (map.py line 76) for the
fields the checks read, modelled from pydantic v2's documented lax-mode
semantics: `Optional[T]` accepts `None` or a missing key as `None`;
`Dict[str, Any]` accepts exactly dicts; `str` accepts exactly strings;
`List[...]` accepts exactly lists (a bare string is not coerced to a list);
any mismatch raises `ValidationError`.  Unknown keys are ignored. -/
def mapSchemaValidate (cfg : Config) : Except PyErr MapSchema := do
  let output ←
    match cfg.lookup "output" with
    | Option.none => pure Option.none
    | some Value.none => pure Option.none
    | some (.dict d) => pure (some (Value.dict d))
    | some _ => throw (.validationError "output")
  let prompt ←
    match cfg.lookup "prompt" with
    | Option.none => pure Option.none
    | some Value.none => pure Option.none
    | some (.str s) => pure (some (Value.str s))
    | some _ => throw (.validationError "prompt")
  let model ←
    match cfg.lookup "model" with
    | Option.none => pure Option.none
    | some Value.none => pure Option.none
    | some (.str s) => pure (some (Value.str s))
    | some _ => throw (.validationError "model")
  let tools ←
    match cfg.lookup "tools" with
    | Option.none => pure Option.none
    | some Value.none => pure Option.none
    | some (.list l) => pure (some (Value.list l))
    | some _ => throw (.validationError "tools")
  let drop_keys ← dropKeysFieldValidate (cfg.lookup "drop_keys")
  pure ⟨output, prompt, model, tools, drop_keys⟩

/-- Truthiness of an optional field of the validated schema object
(`config.x` where an absent field is `None`). -/
def fieldTruthy (v : Option Value) : Bool :=
  match v with
  | some w => w.truthy
  | Option.none => false

/-- Translated from `MapOperation.syntax_check` (map.py lines 68-128), in
source order: pydantic validation of the config; if `drop_keys` is truthy,
the elementwise string check (line 79); otherwise `prompt` and `output` must
both be truthy (lines 81-84); then, when either is truthy, both are required
(lines 86-91), `output["schema"]` must be truthy (line 93 — a plain
subscript, so a missing `schema` key raises `KeyError`), the prompt template
must parse (lines 96-102, the Jinja parser modelled by `tp`), a truthy
non-string `model` raises `TypeError` (lines 104-105 — unreachable after
validation, kept as in the source), the tool checks run (lines 107-126,
delegated to `toolCheck` since the `Tool` classes live outside this
repository), and finally `gleaning_check` (line 128, also outside this
repository, abstracted as `gleaningCheck`). -/
def mapSyntaxCheck (tp : String → Bool) (toolCheck : Value → Except PyErr Unit)
    (gleaningCheck : Except PyErr Unit) (cfg : Config) : Except PyErr Unit := do
  let c ← mapSchemaValidate cfg
  (if fieldTruthy c.drop_keys then
     (match c.drop_keys with
      | some (.list l) =>
          if l.any (fun x => !x.isStr) then
            throw (.typeError "All items in drop_keys must be strings")
          else pure ()
      | _ => pure ())
   else
     if !(fieldTruthy c.prompt && fieldTruthy c.output) then
       throw (.valueError "If drop_keys is not specified, both prompt and output must be present in the configuration")
     else pure ())
  if fieldTruthy c.prompt || fieldTruthy c.output then do
    (if !(fieldTruthy c.prompt) then
       throw (.valueError "Missing required key prompt in MapOperation configuration")
     else pure ())
    (if !(fieldTruthy c.output) then
       throw (.valueError "Missing required key output in MapOperation configuration")
     else pure ())
    (if fieldTruthy c.output then do
       let sch ← getItemStr (c.output.getD Value.none) "schema"
       if !sch.truthy then
         throw (.valueError "Missing schema in output configuration")
       else pure ()
     else pure ())
    (if fieldTruthy c.prompt then
       (match c.prompt with
        | some (.str s) =>
            if !(tp s) then
              throw (.valueError "Invalid Jinja2 template in prompt")
            else pure ()
        | _ => pure ())
     else pure ())
    (if fieldTruthy c.model && !((c.model.getD Value.none).isStr) then
       throw (.typeError "model in configuration must be a string")
     else pure ())
    (match c.tools with
     | some (.list l) =>
         if fieldTruthy c.tools then
           l.foldlM (fun _ t => toolCheck t) ()
         else pure ()
     | _ => pure ())
    gleaningCheck
  else pure ()

/-!
## Heap model

The claims about mutation need object identity: Python records are dicts
passed by reference, and the execute methods must not mutate the
caller-supplied ones.  A heap is a list of records addressed by allocation
index; the executes are re-stated as heap-passing functions in which every
dict the Python code *creates* (`.copy()`, `{**a, **b}`, a comprehension) is
an allocation and every statement that *mutates* a dict in place
(`dict.update`, `dict.pop`) is a store.
-/

/-- The heap: records addressed by allocation index. -/
abbrev Heap := List Record

/-- Read the record at address `i` (out-of-range reads, which no reachable
path performs, give the empty record). -/
def hget (h : Heap) (i : Nat) : Record := h.getD i []

/-- Allocate a fresh record, returning its address. -/
def halloc (h : Heap) (r : Record) : Nat × Heap := (h.length, h ++ [r])

/-- Overwrite the record at address `i` (in-place dict mutation). -/
def hset (h : Heap) (i : Nat) (r : Record) : Heap := h.set i r

/-- Heap-passing version of `MapOperation.execute` (map.py lines 130-244),
returning the output addresses, the cost, and the final heap.  The fast path
allocates one projected dict per item (the comprehension at lines 154-156);
the main path allocates the merged dict `{**item, **output}` (line 214) and,
when `drop_keys` is configured, the projected dict of the drain loop (lines
232-236).  No path stores to an existing address. -/
def mapExecuteH (engine : JinjaEngine) (parse : Value → Record)
    (llm : String → LLMResult) (cfg : Config) (inputIds : List Nat)
    (h0 : Heap) : List Nat × Rat × Heap :=
  if !(cfgHas cfg "prompt") && cfgHas cfg "drop_keys" then
    inputIds.foldl
      (fun acc i =>
        let a := halloc acc.2.2 (dropRecord (cfgDropKeys cfg) (hget acc.2.2 i))
        (acc.1 ++ [a.1], acc.2.1, a.2))
      ([], 0, h0)
  else
    inputIds.foldl
      (fun acc i =>
        let h := acc.2.2
        let item := hget h i
        let r := llm (singlePromptPrompt engine (promptStrOf cfg) item)
        if r.validated then
          let a := halloc h (pyMerge item (parse r.response))
          if cfgHas cfg "drop_keys" then
            let b := halloc a.2 (dropRecord (cfgDropKeys cfg) (hget a.2 a.1))
            (acc.1 ++ [b.1], acc.2.1 + r.total_cost, b.2)
          else (acc.1 ++ [a.1], acc.2.1 + r.total_cost, a.2)
        else (acc.1, acc.2.1 + r.total_cost, h))
      ([], 0, h0)

/-- Heap-passing version of `ParallelMapOperation.execute` (map.py lines
343-451).  In the reassembly fold, `prompt_index == 0` allocates a copy of
the input record (`input_data[item_index].copy()`, line 428) and records its
address in the slot table, and every unit stores the `pyMerge`d record back
through the slot's address (`item_result.update(output)`, line 435 — an
in-place mutation of the *copy*).  An unfilled slot at a non-zero prompt
index would be a `KeyError` in Python; it is unreachable (the unit with
prompt index 0 of the same item is drained earlier) and modelled as leaving
the heap unchanged.  The `drop_keys` phase (lines 441-445) mutates each
slot's record in place via `pop`. -/
def parallelExecuteH (outcome : Nat → Record × Rat) (cfg : Config)
    (inputIds : List Nat) (h0 : Heap) : List Nat × Rat × Heap :=
  if !(cfgHas cfg "prompts") && cfgHas cfg "drop_keys" then
    inputIds.foldl
      (fun acc i =>
        let a := halloc acc.2.2 (dropRecord (cfgDropKeys cfg) (hget acc.2.2 i))
        (acc.1 ++ [a.1], acc.2.1, a.2))
      ([], 0, h0)
  else
    let n := inputIds.length
    let folded : List (Option Nat) × Rat × Heap :=
      if cfgHas cfg "prompts" then
        let p := (cfgPrompts cfg).length
        (List.range (n * p)).foldl
          (fun acc u =>
            let out := (outcome u).1
            let cost := (outcome u).2
            let total := acc.2.1 + cost
            let item_index := u / p
            let sh :=
              if u % p == 0 then
                let a := halloc acc.2.2 (hget acc.2.2 (inputIds.getD item_index 0))
                (acc.1.set item_index (some a.1), a.2)
              else (acc.1, acc.2.2)
            match sh.1.getD item_index Option.none with
            | some rid =>
                (sh.1, total, hset sh.2 rid (pyMerge (hget sh.2 rid) out))
            | Option.none => (sh.1, total, sh.2))
          (List.replicate n Option.none, 0, h0)
      else
        inputIds.foldl
          (fun acc i =>
            let a := halloc acc.2.2 (hget acc.2.2 i)
            (acc.1 ++ [some a.1], acc.2.1, a.2))
          ([], 0, h0)
    let h2 :=
      if cfgHas cfg "drop_keys" then
        folded.1.foldl
          (fun h s =>
            match s with
            | some rid => hset h rid (dropRecord (cfgDropKeys cfg) (hget h rid))
            | Option.none => h)
          folded.2.2
      else folded.2.2
    ((List.range n).filterMap (fun i => folded.1.getD i Option.none),
     folded.2.1, h2)

/-- The record the single-prompt drain loop appends for one item, after the
optional `drop_keys` projection. -/
def mapItemPost (cfg : Config) (r : Record) : Record :=
  if cfgHas cfg "drop_keys" then dropRecord (cfgDropKeys cfg) r else r

/-- The optional output record one item contributes to the single-prompt
result collection. -/
def mapItemOut (engine : JinjaEngine) (parse : Value → Record)
    (llm : String → LLMResult) (cfg : Config) (item : Record) : Option Record :=
  ((processMapItem engine parse llm cfg item).1).map (mapItemPost cfg)

/-- The cost one item contributes to the single-prompt total. -/
def mapItemCost (engine : JinjaEngine) (parse : Value → Record)
    (llm : String → LLMResult) (cfg : Config) (item : Record) : Rat :=
  (processMapItem engine parse llm cfg item).2

/-- The record item `item` would contribute if its unit validated: the input
projection for the fast path, the post-processed merge for the generative
path.  Every actual output record equals this candidate of its item. -/
def mapItemCandidate (engine : JinjaEngine) (parse : Value → Record)
    (llm : String → LLMResult) (cfg : Config) (item : Record) : Record :=
  if !(cfgHas cfg "prompt") && cfgHas cfg "drop_keys" then
    dropRecord (cfgDropKeys cfg) item
  else
    mapItemPost cfg
      (pyMerge item
        (parse (llm (singlePromptPrompt engine (promptStrOf cfg) item)).response))

/-- The per-item candidate records of the multi-prompt variant: the record
that appears at an input index when its slot is filled (always, on the main
path with a non-empty prompt list). -/
def parallelItemCandidates (outcome : Nat → Record × Rat) (cfg : Config)
    (input_data : List Record) : List Record :=
  if !(cfgHas cfg "prompts") && cfgHas cfg "drop_keys" then
    input_data.map (dropRecord (cfgDropKeys cfg))
  else (parallelResultsTable outcome cfg input_data).map (fun o => o.getD [])

/-- `h` extends `h0`: every address of `h0` still holds its original record
and new allocations sit past them. -/
def HExt (h0 h : Heap) : Prop := ∃ t, h = h0 ++ t

/-!
## Concrete configurations used by witnesses and counterexamples
-/

/-- A multi-prompt configuration whose single prompt covers `a` and `b`
while `output.schema` declares only `a`: the union of `output_keys` is a
strict superset of the schema key set. -/
def cfgSupersetCovered : Config :=
  [("prompts", Value.list
      [Value.dict
        [("prompt", Value.str "p"),
         ("output_keys", Value.list [Value.str "a", Value.str "b"])]]),
   ("output", Value.dict [("schema", Value.dict [("a", Value.str "string")])])]

/-- A single-prompt configuration whose `output` entry is present (and
truthy) but has no `schema` key at all. -/
def cfgOutputNoSchema : Config :=
  [("prompt", Value.str "p"),
   ("output", Value.dict [("foo", Value.int 1)])]

/-- A single-prompt configuration passing `drop_keys` as a bare string. -/
def cfgBareDropKeys : Config :=
  [("drop_keys", Value.str "foo")]

/-- A single-prompt configuration with a prompt and an `echo: string` output
schema. -/
def cfgSingleEcho : Config :=
  [("prompt", Value.str "p"),
   ("output", Value.dict [("schema", Value.dict [("echo", Value.str "string")])])]

/-- A configuration carrying only `drop_keys: ["x"]`. -/
def cfgDropOnly : Config :=
  [("drop_keys", Value.list [Value.str "x"])]

/-- A multi-prompt configuration with one prompt covering the whole
single-key schema `a`. -/
def cfgOnePrompt : Config :=
  [("prompts", Value.list
      [Value.dict
        [("prompt", Value.str "p"),
         ("output_keys", Value.list [Value.str "a"])]]),
   ("output", Value.dict [("schema", Value.dict [("a", Value.str "string")])])]

/-!
## Supporting lemmas
-/

/-- Invariant preservation along a left fold. -/
theorem foldl_preserves {α σ : Type _} (P : σ → Prop) (step : σ → α → σ) :
    ∀ (l : List α) (init : σ), P init →
      (∀ s a, a ∈ l → P s → P (step s a)) → P (l.foldl step init)
  | [], _, h, _ => h
  | a :: l, init, h, hstep =>
      foldl_preserves P step l (step init a)
        (hstep init a (List.mem_cons_self a l) h)
        (fun s b hb hs => hstep s b (List.mem_cons_of_mem a hb) hs)

/-- Lookup through a key-preserving value rewrite. -/
theorem lookup_map_value (f : String → Value → Value) :
    ∀ (l : Record) (k : String),
      List.lookup k (l.map (fun kv => (kv.1, f kv.1 kv.2))) =
        (List.lookup k l).map (f k)
  | [], _ => rfl
  | (k', v) :: l, k => by
      by_cases h : k = k'
      · subst h; simp [List.lookup]
      · have hb : (k == k') = false := beq_false_of_ne h
        simp [List.lookup, hb, lookup_map_value f l k]

/-- A successful lookup in the left part of an append. -/
theorem lookup_append_some {β : Type _} {l₁ l₂ : List (String × β)} {k : String}
    {v : β} (h : List.lookup k l₁ = some v) :
    List.lookup k (l₁ ++ l₂) = some v := by
  induction l₁ with
  | nil => simp [List.lookup] at h
  | cons a l ih =>
      rcases a with ⟨k', w⟩
      by_cases hk : k = k'
      · subst hk; simp [List.lookup] at h ⊢; exact h
      · have hb : (k == k') = false := beq_false_of_ne hk
        simp [List.lookup, hb] at h ⊢
        exact ih h

/-- A failed lookup in the left part of an append falls through. -/
theorem lookup_append_none {β : Type _} {l₁ l₂ : List (String × β)} {k : String}
    (h : List.lookup k l₁ = Option.none) :
    List.lookup k (l₁ ++ l₂) = List.lookup k l₂ := by
  induction l₁ with
  | nil => rfl
  | cons a l ih =>
      rcases a with ⟨k', w⟩
      by_cases hk : k = k'
      · subst hk; simp [List.lookup] at h
      · have hb : (k == k') = false := beq_false_of_ne hk
        have hcons : List.lookup k ((k', w) :: l) = List.lookup k l := by
          simp [List.lookup, hb]
        rw [hcons] at h
        have hcons₂ :
            List.lookup k (((k', w) :: l) ++ l₂) = List.lookup k (l ++ l₂) := by
          simp [List.lookup, hb]
        rw [hcons₂]
        exact ih h

/-- A lookup is `none` exactly when the key is absent. -/
theorem lookup_eq_none_iff {β : Type _} {l : List (String × β)} {k : String} :
    List.lookup k l = Option.none ↔ k ∉ l.map Prod.fst := by
  induction l with
  | nil => simp [List.lookup]
  | cons a l ih =>
      rcases a with ⟨k', w⟩
      by_cases hk : k = k'
      · subst hk; simp [List.lookup]
      · have hb : (k == k') = false := beq_false_of_ne hk
        simp [List.lookup, hb, ih, hk]

/-- Filtering by a predicate that holds on every entry with key `k` does not
change the lookup of `k`. -/
theorem lookup_filter {β : Type _} {p : String × β → Bool} {k : String} :
    ∀ {l : List (String × β)}, (∀ v, p (k, v) = true) →
      List.lookup k (l.filter p) = List.lookup k l := by
  intro l hp
  induction l with
  | nil => rfl
  | cons a l ih =>
      rcases a with ⟨k', w⟩
      by_cases hk : k = k'
      · subst hk
        simp [List.filter, hp w, List.lookup, ih]
      · have hb : (k == k') = false := beq_false_of_ne hk
        cases hpw : p (k', w) with
        | true => simp [List.filter, hpw, List.lookup, hb, ih]
        | false => simp [List.filter, hpw, List.lookup, hb, ih]

/-- In `{**a, **b}`, a key bound by `b` gets `b`'s value. -/
theorem pyMerge_lookup_right {a b : Record} {k : String} {w : Value}
    (h : List.lookup k b = some w) :
    List.lookup k (pyMerge a b) = some w := by
  unfold pyMerge
  cases ha : List.lookup k a with
  | some v =>
      have hmap :
          List.lookup k
              (a.map (fun kv => (kv.1, (List.lookup kv.1 b).getD kv.2))) =
            some ((List.lookup k b).getD v) := by
        rw [lookup_map_value (fun k' v' => (List.lookup k' b).getD v') a k, ha]
        rfl
      rw [h] at hmap
      exact lookup_append_some hmap
  | none =>
      have hmap :
          List.lookup k
              (a.map (fun kv => (kv.1, (List.lookup kv.1 b).getD kv.2))) =
            Option.none := by
        rw [lookup_map_value (fun k' v' => (List.lookup k' b).getD v') a k, ha]
        rfl
      rw [lookup_append_none hmap]
      have hk : k ∉ a.map Prod.fst := lookup_eq_none_iff.mp ha
      rw [lookup_filter (p := fun kv => decide (kv.1 ∉ a.map Prod.fst))
            (fun _ => by simp [hk])]
      exact h

/-- In `{**a, **b}`, a key not bound by `b` keeps `a`'s value. -/
theorem pyMerge_lookup_left {a b : Record} {k : String}
    (h : List.lookup k b = Option.none) :
    List.lookup k (pyMerge a b) = List.lookup k a := by
  unfold pyMerge
  cases ha : List.lookup k a with
  | some v =>
      have hmap :
          List.lookup k
              (a.map (fun kv => (kv.1, (List.lookup kv.1 b).getD kv.2))) =
            some ((List.lookup k b).getD v) := by
        rw [lookup_map_value (fun k' v' => (List.lookup k' b).getD v') a k, ha]
        rfl
      rw [h] at hmap
      exact lookup_append_some hmap
  | none =>
      have hmap :
          List.lookup k
              (a.map (fun kv => (kv.1, (List.lookup kv.1 b).getD kv.2))) =
            Option.none := by
        rw [lookup_map_value (fun k' v' => (List.lookup k' b).getD v') a k, ha]
        rfl
      rw [lookup_append_none hmap]
      have hk : k ∉ a.map Prod.fst := lookup_eq_none_iff.mp ha
      rw [lookup_filter (p := fun kv => decide (kv.1 ∉ a.map Prod.fst))
            (fun _ => by simp [hk])]
      exact h

/-- A `filterMap` whose hits agree with a total function is a sublist of the
corresponding `map`. -/
theorem filterMap_sublist_map {α β : Type _} (g : α → Option β) (g' : α → β)
    (hg : ∀ a b, g a = some b → b = g' a) :
    ∀ l : List α, (l.filterMap g).Sublist (l.map g')
  | [] => List.Sublist.refl []
  | a :: l => by
      rw [List.filterMap_cons, List.map_cons]
      cases h : g a with
      | none => exact (filterMap_sublist_map g g' hg l).cons (g' a)
      | some b =>
          rw [hg a b h]
          exact (filterMap_sublist_map g g' hg l).cons₂ (g' a)

/-- Reading the slots of a table in index order collects exactly its filled
entries. -/
theorem range_getD_filterMap {α : Type _} :
    ∀ l : List (Option α),
      (List.range l.length).filterMap (fun i => l.getD i Option.none) =
        l.filterMap id
  | [] => rfl
  | o :: l => by
      have : List.range (o :: l).length = 0 :: (List.range l.length).map Nat.succ := by
        simp [List.range_succ_eq_map]
      rw [this, List.filterMap_cons, List.filterMap_map]
      have hcomp :
          ((fun i => (o :: l).getD i Option.none) ∘ Nat.succ) =
            (fun i => l.getD i Option.none) := rfl
      rw [hcomp, range_getD_filterMap l]
      cases o <;> simp [List.getD]

/-- A `getD` read is a member of the list or the default. -/
theorem getD_mem_or_eq {α : Type _} :
    ∀ (l : List α) (i : Nat) (d : α), l.getD i d ∈ l ∨ l.getD i d = d
  | [], _, _ => Or.inr rfl
  | a :: _, 0, _ => Or.inl (List.mem_cons_self _ _)
  | _ :: l, i + 1, d => by
      rcases getD_mem_or_eq l i d with h | h
      · exact Or.inl (List.mem_cons_of_mem _ h)
      · exact Or.inr h

/-- The drain loop of `MapOperation.execute`, in closed form: the collected
records are the hits of `mapItemOut` in input order and the total cost is the
sum of every item's cost. -/
theorem mapExecute_fold (engine : JinjaEngine) (parse : Value → Record)
    (llm : String → LLMResult) (cfg : Config) :
    ∀ (l : List Record) (acc : List Record × Rat),
      ((l.map (processMapItem engine parse llm cfg)).foldl
        (fun acc rc =>
          match rc.1 with
          | some result =>
              (acc.1 ++ [if cfgHas cfg "drop_keys" then
                           dropRecord (cfgDropKeys cfg) result
                         else result],
               acc.2 + rc.2)
          | Option.none => (acc.1, acc.2 + rc.2))
        acc) =
      (acc.1 ++ l.filterMap (mapItemOut engine parse llm cfg),
       acc.2 + (l.map (mapItemCost engine parse llm cfg)).sum)
  | [], acc => by simp
  | item :: l, acc => by
      rw [List.map_cons, List.foldl_cons,
        mapExecute_fold engine parse llm cfg l, List.filterMap_cons,
        List.map_cons, List.sum_cons]
      unfold mapItemOut mapItemCost mapItemPost
      cases h : (processMapItem engine parse llm cfg item).1 with
      | none => simp [h, add_assoc]
      | some r => simp [h, add_assoc]

/-- `MapOperation.execute` in closed form, off the fast path. -/
theorem mapExecute_main (engine : JinjaEngine) (parse : Value → Record)
    (llm : String → LLMResult) (cfg : Config) (input_data : List Record)
    (h : (!(cfgHas cfg "prompt") && cfgHas cfg "drop_keys") = false) :
    mapExecute engine parse llm cfg input_data =
      (input_data.filterMap (mapItemOut engine parse llm cfg),
       (input_data.map (mapItemCost engine parse llm cfg)).sum) := by
  unfold mapExecute
  rw [h]
  simpa using mapExecute_fold engine parse llm cfg input_data ([], 0)

/-- The slot table of the multi-prompt reassembly fold always has one slot
per input item. -/
theorem parallelMainFold_length (outcome : Nat → Record × Rat)
    (input_data : List Record) (p : Nat) :
    (parallelMainFold outcome input_data p).1.length = input_data.length := by
  unfold parallelMainFold
  refine foldl_preserves
    (fun acc : List (Option Record) × Rat => acc.1.length = input_data.length)
    _ _ _ (by simp) ?_
  intro s u _ hs
  by_cases h0 : u % p == 0 <;> simp [h0, List.length_set, hs]

/-- The slot table has one slot per input item. -/
theorem parallelResultsTable_length (outcome : Nat → Record × Rat)
    (cfg : Config) (input_data : List Record) :
    (parallelResultsTable outcome cfg input_data).length = input_data.length := by
  unfold parallelResultsTable parallelFolded
  by_cases hp : cfgHas cfg "prompts" <;>
    by_cases hd : cfgHas cfg "drop_keys" <;>
      simp [hp, hd, parallelMainFold_length]

/-- Off the fast path, the multi-prompt output collection is exactly the
filled slots of the table, in order. -/
theorem parallelExecute_main (outcome : Nat → Record × Rat) (cfg : Config)
    (input_data : List Record)
    (h : (!(cfgHas cfg "prompts") && cfgHas cfg "drop_keys") = false) :
    (parallelExecute outcome cfg input_data).1 =
      (parallelResultsTable outcome cfg input_data).filterMap id := by
  unfold parallelExecute
  rw [h]
  simp only [Bool.false_eq_true, if_false]
  rw [← parallelResultsTable_length outcome cfg input_data,
    range_getD_filterMap]

/-!
## Heap lemmas
-/

theorem HExt.refl (h : Heap) : HExt h h := ⟨[], by simp⟩

theorem HExt.length_le {h0 h : Heap} (e : HExt h0 h) : h0.length ≤ h.length := by
  rcases e with ⟨t, rfl⟩
  simp

theorem HExt.alloc {h0 h : Heap} (e : HExt h0 h) (r : Record) :
    HExt h0 (h ++ [r]) := by
  rcases e with ⟨t, rfl⟩
  exact ⟨t ++ [r], by simp⟩

/-- Appending then setting past the prefix leaves the prefix intact. -/
theorem set_append_of_le {α : Type _} :
    ∀ (l t : List α) (i : Nat) (a : α), l.length ≤ i →
      (l ++ t).set i a = l ++ t.set (i - l.length) a
  | [], t, i, a, _ => by simp
  | b :: l, t, i + 1, a, h => by
      have := set_append_of_le l t i a (Nat.le_of_succ_le_succ h)
      simp [List.set, this, Nat.succ_sub_succ]
  | b :: l, t, 0, a, h => by simp at h

theorem HExt.set {h0 h : Heap} (e : HExt h0 h) {i : Nat}
    (hi : h0.length ≤ i) (r : Record) : HExt h0 (hset h i r) := by
  rcases e with ⟨t, rfl⟩
  exact ⟨t.set (i - h0.length) r, set_append_of_le h0 t i r hi⟩

theorem HExt.get {h0 h : Heap} (e : HExt h0 h) {j : Nat}
    (hj : j < h0.length) : hget h j = hget h0 j := by
  rcases e with ⟨t, rfl⟩
  exact List.getD_append h0 t [] j hj

/-- `MapOperation.execute` never stores to a pre-existing address: the heap
after `mapExecuteH` extends the initial heap. -/
theorem mapExecuteH_hext (engine : JinjaEngine) (parse : Value → Record)
    (llm : String → LLMResult) (cfg : Config) (inputIds : List Nat)
    (h0 : Heap) :
    HExt h0 (mapExecuteH engine parse llm cfg inputIds h0).2.2 := by
  unfold mapExecuteH
  by_cases hf : (!(cfgHas cfg "prompt") && cfgHas cfg "drop_keys") = true
  · rw [if_pos hf]
    refine foldl_preserves
      (fun acc : List Nat × Rat × Heap => HExt h0 acc.2.2) _ _ _
      (HExt.refl h0) ?_
    intro s i _ hs
    exact hs.alloc _
  · rw [if_neg hf]
    refine foldl_preserves
      (fun acc : List Nat × Rat × Heap => HExt h0 acc.2.2) _ _ _
      (HExt.refl h0) ?_
    intro s i _ hs
    dsimp only
    by_cases hv : (llm (singlePromptPrompt engine (promptStrOf cfg)
        (hget s.2.2 i))).validated
    · rw [if_pos hv]
      by_cases hd : cfgHas cfg "drop_keys" = true
      · rw [if_pos hd]
        exact (hs.alloc _).alloc _
      · rw [if_neg hd]
        exact hs.alloc _
    · rw [if_neg hv]
      exact hs

/-- `ParallelMapOperation.execute` stores only to addresses it allocated
during the run: the heap after `parallelExecuteH` extends the initial heap. -/
theorem parallelExecuteH_hext (outcome : Nat → Record × Rat) (cfg : Config)
    (inputIds : List Nat) (h0 : Heap) :
    HExt h0 (parallelExecuteH outcome cfg inputIds h0).2.2 := by
  unfold parallelExecuteH
  by_cases hf : (!(cfgHas cfg "prompts") && cfgHas cfg "drop_keys") = true
  · rw [if_pos hf]
    refine foldl_preserves
      (fun acc : List Nat × Rat × Heap => HExt h0 acc.2.2) _ _ _
      (HExt.refl h0) ?_
    intro s i _ hs
    exact hs.alloc _
  · rw [if_neg hf]
    dsimp only
    have key :
        ∀ folded : List (Option Nat) × Rat × Heap,
          (HExt h0 folded.2.2 ∧ ∀ x, some x ∈ folded.1 → h0.length ≤ x) →
          HExt h0
            (if cfgHas cfg "drop_keys" then
              folded.1.foldl
                (fun h s =>
                  match s with
                  | some rid =>
                      hset h rid (dropRecord (cfgDropKeys cfg) (hget h rid))
                  | Option.none => h)
                folded.2.2
             else folded.2.2) := by
      intro folded hinv
      by_cases hd : cfgHas cfg "drop_keys" = true
      · rw [if_pos hd]
        refine foldl_preserves (fun h : Heap => HExt h0 h) _ _ _ hinv.1 ?_
        intro h s hsmem hh
        cases s with
        | none => exact hh
        | some rid => exact hh.set (hinv.2 rid hsmem) _
      · rw [if_neg hd]
        exact hinv.1
    apply key
    by_cases hp : cfgHas cfg "prompts" = true
    · rw [if_pos hp]
      refine foldl_preserves
        (fun acc : List (Option Nat) × Rat × Heap =>
          HExt h0 acc.2.2 ∧ ∀ x, some x ∈ acc.1 → h0.length ≤ x)
        _ _ _ ⟨HExt.refl h0, by intro x hx; simp at hx⟩ ?_
      intro s u _ hs
      dsimp only
      set p := (cfgPrompts cfg).length with hpdef
      by_cases h0p : (u % p == 0) = true
      · rw [if_pos h0p]
        dsimp only [halloc]
        have hfresh : h0.length ≤ s.2.2.length := hs.1.length_le
        have hslots :
            ∀ x, some x ∈ s.1.set (u / p) (some s.2.2.length) →
              h0.length ≤ x := by
          intro x hx
          rcases List.mem_or_eq_of_mem_set hx with hmem | heq
          · exact hs.2 x hmem
          · cases heq; exact hfresh
        have hheap : HExt h0 (s.2.2 ++ [hget s.2.2 (inputIds.getD (u / p) 0)]) :=
          hs.1.alloc _
        cases hrd : (s.1.set (u / p) (some s.2.2.length)).getD (u / p)
            Option.none with
        | none => exact ⟨hheap, hslots⟩
        | some rid =>
            have hmem : some rid ∈ s.1.set (u / p) (some s.2.2.length) := by
              rcases getD_mem_or_eq (s.1.set (u / p) (some s.2.2.length))
                  (u / p) Option.none with hm | hm
              · rw [hrd] at hm; exact hm
              · rw [hrd] at hm; cases hm
            exact ⟨hheap.set (hslots rid hmem) _, hslots⟩
      · rw [if_neg (by simpa using h0p)]
        dsimp only
        cases hrd : s.1.getD (u / p) Option.none with
        | none => exact hs
        | some rid =>
            have hmem : some rid ∈ s.1 := by
              rcases getD_mem_or_eq s.1 (u / p) Option.none with hm | hm
              · rw [hrd] at hm; exact hm
              · rw [hrd] at hm; cases hm
            exact ⟨hs.1.set (hs.2 rid hmem) _, hs.2⟩
    · rw [if_neg hp]
      refine foldl_preserves
        (fun acc : List (Option Nat) × Rat × Heap =>
          HExt h0 acc.2.2 ∧ ∀ x, some x ∈ acc.1 → h0.length ≤ x)
        _ _ _ ⟨HExt.refl h0, by intro x hx; simp at hx⟩ ?_
      intro s i _ hs
      dsimp only
      refine ⟨hs.1.alloc _, ?_⟩
      intro x hx
      rw [List.mem_append] at hx
      rcases hx with hx | hx
      · exact hs.2 x hx
      · simp at hx
        cases hx
        exact hs.1.length_le

/-!
## Claims
-/

/-- C3: for every input collection and every configuration carrying
`drop_keys` but no generative directive (no `prompt` key for the
single-prompt variant, no `prompts` key for the multi-prompt variant), both
executes return one record per input record — that record with every field
named in `drop_keys` removed, names absent from a record ignored — in
original order, at total cost exactly zero, independently of the
model-invocation collaborator (which is universally quantified and therefore
never consulted). -/
theorem claim3_drop_keys_fast_path
    (engine : JinjaEngine) (parse : Value → Record) (llm : String → LLMResult)
    (outcome : Nat → Record × Rat) (cfg cfg' : Config)
    (input input' : List Record)
    (h1 : cfgHas cfg "drop_keys" = true) (h2 : cfgHas cfg "prompt" = false)
    (h1' : cfgHas cfg' "drop_keys" = true)
    (h2' : cfgHas cfg' "prompts" = false) :
    mapExecute engine parse llm cfg input =
      (input.map (dropRecord (cfgDropKeys cfg)), 0) ∧
    parallelExecute outcome cfg' input' =
      (input'.map (dropRecord (cfgDropKeys cfg')), 0) := by
  constructor
  · unfold mapExecute
    rw [h1, h2]
    rfl
  · unfold parallelExecute
    rw [h1', h2']
    rfl

/-- C3 witness: a concrete `drop_keys`-only run of both variants, on a
record that has the dropped field and one that does not. -/
theorem claim3_witness :
    mapExecute literalJinja (fun _ => []) (fun _ => ⟨Value.none, 0, false⟩)
        cfgDropOnly [[("x", Value.int 1), ("y", Value.int 2)], [("y", Value.int 3)]] =
      ([[("x", Value.int 1), ("y", Value.int 2)],
        [("y", Value.int 3)]].map (dropRecord (cfgDropKeys cfgDropOnly)), 0) ∧
    parallelExecute (fun _ => ([], 0)) cfgDropOnly [[("x", Value.int 1)]] =
      ([[("x", Value.int 1)]].map (dropRecord (cfgDropKeys cfgDropOnly)), 0) :=
  claim3_drop_keys_fast_path literalJinja (fun _ => [])
    (fun _ => ⟨Value.none, 0, false⟩) (fun _ => ([], 0)) cfgDropOnly cfgDropOnly
    [[("x", Value.int 1), ("y", Value.int 2)], [("y", Value.int 3)]]
    [[("x", Value.int 1)]] rfl rfl rfl rfl

/-- C5: for a single-prompt item whose Invocation Result is validated, the
emitted record is `{**item, **parsed_output}`: every key of the parsed
output carries the output's value in the result, and every key of the
original record not bound by the parsed output keeps its original value. -/
theorem claim5_validated_merge (engine : JinjaEngine) (parse : Value → Record)
    (llm : String → LLMResult) (cfg : Config) (item : Record)
    (hv : (llm (singlePromptPrompt engine (promptStrOf cfg) item)).validated
            = true) :
    (processMapItem engine parse llm cfg item).1 =
      some (pyMerge item
        (parse (llm (singlePromptPrompt engine (promptStrOf cfg) item)).response)) ∧
    (∀ k w,
        List.lookup k
            (parse (llm (singlePromptPrompt engine (promptStrOf cfg) item)).response)
          = some w →
        List.lookup k
            (pyMerge item
              (parse (llm (singlePromptPrompt engine (promptStrOf cfg) item)).response))
          = some w) ∧
    (∀ k,
        List.lookup k
            (parse (llm (singlePromptPrompt engine (promptStrOf cfg) item)).response)
          = Option.none →
        List.lookup k
            (pyMerge item
              (parse (llm (singlePromptPrompt engine (promptStrOf cfg) item)).response))
          = List.lookup k item) := by
  refine ⟨?_, ?_, ?_⟩
  · simp [processMapItem, hv]
  · intro k w h
    exact pyMerge_lookup_right h
  · intro k h
    exact pyMerge_lookup_left h

/-- C5 witness: a validated item whose parsed output overwrites the `echo`
field and leaves `id` intact. -/
theorem claim5_witness :
    (processMapItem literalJinja (fun v => [("echo", v)])
        (fun s => ⟨Value.str s, 1/100, true⟩) cfgSingleEcho
        [("id", Value.int 1), ("echo", Value.int 0)]).1 =
      some [("id", Value.int 1), ("echo", Value.str "p")] ∧
    List.lookup "echo"
        (pyMerge [("id", Value.int 1), ("echo", Value.int 0)]
          [("echo", Value.str "p")]) = some (Value.str "p") ∧
    List.lookup "id"
        (pyMerge [("id", Value.int 1), ("echo", Value.int 0)]
          [("echo", Value.str "p")]) = some (Value.int 1) := by
  have h := claim5_validated_merge literalJinja (fun v => [("echo", v)])
    (fun s => ⟨Value.str s, 1/100, true⟩) cfgSingleEcho
    [("id", Value.int 1), ("echo", Value.int 0)] rfl
  exact ⟨h.1.trans rfl, h.2.1 "echo" (Value.str "p") rfl,
    (h.2.2 "id" rfl).trans rfl⟩

/-- C7 (code bug): on a configuration with a `prompt` and a present, truthy
`output` dict lacking the `schema` key, `MapOperation.syntax_check` raises
`KeyError` at `config.output["schema"]` — not one of the structured
`ValueError`/`TypeError` configuration errors its docstring and the spec
promise — whatever the template parser, tool checker and gleaning check
do. -/
theorem claim7_output_without_schema_keyerror (tp : String → Bool)
    (toolCheck : Value → Except PyErr Unit) (gleaningCheck : Except PyErr Unit) :
    mapSyntaxCheck tp toolCheck gleaningCheck cfgOutputNoSchema =
      Except.error (PyErr.keyError "schema") := rfl

/-- C8: `render_jinja_template` returns the empty string on the empty record
for every engine (hence without consulting the engine), and renders through
the autoescaping environment on every non-empty record. -/
theorem claim8_render_contract (engine : JinjaEngine) (tmpl : String)
    (data : Record) (h : data ≠ []) :
    render_jinja_template engine tmpl [] = "" ∧
    render_jinja_template engine tmpl data = engine.render true tmpl data := by
  constructor
  · rfl
  · unfold render_jinja_template
    rw [if_neg (fun hc => h (List.isEmpty_iff.mp hc))]

/-- C8 witness: the contract at a literal template and a one-field record. -/
theorem claim8_witness :
    render_jinja_template literalJinja "t" [] = "" ∧
    render_jinja_template literalJinja "t" [("a", Value.int 1)] =
      literalJinja.render true "t" [("a", Value.int 1)] :=
  claim8_render_contract literalJinja "t" [("a", Value.int 1)]
    (List.cons_ne_nil _ _)

/-- C10 (code bug): a bare-string `drop_keys` is rejected by the schema with
a pydantic `ValidationError` — the after-mode `field_validator` never sees
the raw string, so the normalization to a one-element list that
`validate_drop_keys` was written to perform (last conjunct) never happens. -/
theorem claim10_bare_string_drop_keys :
    dropKeysFieldValidate (some (Value.str "foo")) =
      Except.error (PyErr.validationError "drop_keys") ∧
    mapSchemaValidate cfgBareDropKeys =
      Except.error (PyErr.validationError "drop_keys") ∧
    mapSyntaxCheck (fun _ => true) (fun _ => Except.ok ()) (Except.ok ())
        cfgBareDropKeys =
      Except.error (PyErr.validationError "drop_keys") ∧
    validate_drop_keys (Value.str "foo") = Value.list [Value.str "foo"] :=
  ⟨rfl, rfl, rfl, rfl⟩

/-- C2: when the model-invocation collaborator marks an item's Invocation
Result `validated = false`, `MapOperation.execute` omits that item's record
from the output collection — the other items' results are exactly those of
the run without the item — while the item's `total_cost` is still added to
the returned total.  No exception is modelled because the code path returns
`(None, cost)` rather than raising. -/
theorem claim2_unvalidated_item_dropped (engine : JinjaEngine)
    (parse : Value → Record) (llm : String → LLMResult) (cfg : Config)
    (pre post : List Record) (item : Record)
    (hp : cfgHas cfg "prompt" = true)
    (hv : (llm (singlePromptPrompt engine (promptStrOf cfg) item)).validated
            = false) :
    (mapExecute engine parse llm cfg (pre ++ item :: post)).1 =
      (mapExecute engine parse llm cfg (pre ++ post)).1 ∧
    (mapExecute engine parse llm cfg (pre ++ item :: post)).2 =
      (mapExecute engine parse llm cfg (pre ++ post)).2 +
        (llm (singlePromptPrompt engine (promptStrOf cfg) item)).total_cost := by
  have hcond : (!(cfgHas cfg "prompt") && cfgHas cfg "drop_keys") = false := by
    rw [hp]
    rfl
  have hout : mapItemOut engine parse llm cfg item = Option.none := by
    simp [mapItemOut, processMapItem, hv]
  have hcost : mapItemCost engine parse llm cfg item =
      (llm (singlePromptPrompt engine (promptStrOf cfg) item)).total_cost := by
    simp [mapItemCost, processMapItem, hv]
  rw [mapExecute_main engine parse llm cfg (pre ++ item :: post) hcond,
    mapExecute_main engine parse llm cfg (pre ++ post) hcond]
  constructor
  · simp [List.filterMap_append, List.filterMap_cons, hout]
  · simp only [List.map_append, List.sum_append, List.map_cons, List.sum_cons,
      hcost]
    ring

/-- C2 witness: one unvalidated item against an empty rest of the
collection — the output collection is empty and the cost is still
counted. -/
theorem claim2_witness :
    (mapExecute literalJinja (fun _ => [])
        (fun _ => ⟨Value.none, 3/100, false⟩) cfgSingleEcho
        [[("id", Value.int 1)]]).1 =
      (mapExecute literalJinja (fun _ => [])
        (fun _ => ⟨Value.none, 3/100, false⟩) cfgSingleEcho []).1 ∧
    (mapExecute literalJinja (fun _ => [])
        (fun _ => ⟨Value.none, 3/100, false⟩) cfgSingleEcho
        [[("id", Value.int 1)]]).2 =
      (mapExecute literalJinja (fun _ => [])
        (fun _ => ⟨Value.none, 3/100, false⟩) cfgSingleEcho []).2 + 3/100 :=
  claim2_unvalidated_item_dropped literalJinja (fun _ => [])
    (fun _ => ⟨Value.none, 3/100, false⟩) cfgSingleEcho [] []
    [("id", Value.int 1)] rfl rfl

/-- C4: for every input collection and every configuration, in both variants
the output collection is no longer than the input and is a subsequence — in
input order, without duplication — of the per-item candidate records, one
candidate per input index.  Completion order plays no part: the model
collaborator enters only as a function of the unit, which is what the
drain-in-submission-order loops of the code reduce it to. -/
theorem claim4_output_is_subsequence (engine : JinjaEngine)
    (parse : Value → Record) (llm : String → LLMResult)
    (outcome : Nat → Record × Rat) (cfg cfg' : Config)
    (input input' : List Record) :
    ((mapExecute engine parse llm cfg input).1.length ≤ input.length ∧
     (mapExecute engine parse llm cfg input).1.Sublist
       (input.map (mapItemCandidate engine parse llm cfg)) ∧
     (input.map (mapItemCandidate engine parse llm cfg)).length =
       input.length) ∧
    ((parallelExecute outcome cfg' input').1.length ≤ input'.length ∧
     (parallelExecute outcome cfg' input').1.Sublist
       (parallelItemCandidates outcome cfg' input') ∧
     (parallelItemCandidates outcome cfg' input').length = input'.length) := by
  constructor
  · cases hf : (!(cfgHas cfg "prompt") && cfgHas cfg "drop_keys") with
    | true =>
        have hcand : input.map (mapItemCandidate engine parse llm cfg) =
            input.map (dropRecord (cfgDropKeys cfg)) := by
          refine List.map_congr_left ?_
          intro item _
          unfold mapItemCandidate
          rw [hf]
          rfl
        have hexec : (mapExecute engine parse llm cfg input).1 =
            input.map (dropRecord (cfgDropKeys cfg)) := by
          unfold mapExecute
          rw [hf]
          rfl
        refine ⟨?_, ?_, by simp⟩
        · rw [hexec]; simp
        · rw [hexec, hcand]
    | false =>
        have hsub : (mapExecute engine parse llm cfg input).1.Sublist
            (input.map (mapItemCandidate engine parse llm cfg)) := by
          rw [mapExecute_main engine parse llm cfg input hf]
          refine filterMap_sublist_map _ _ ?_ input
          intro item r hr
          unfold mapItemOut at hr
          unfold mapItemCandidate
          rw [hf]
          cases hval : (llm (singlePromptPrompt engine (promptStrOf cfg)
              item)).validated with
          | false => simp [processMapItem, hval] at hr
          | true =>
              simp [processMapItem, hval] at hr
              simp [← hr]
        refine ⟨?_, hsub, by simp⟩
        exact le_trans hsub.length_le (by simp)
  · cases hf : (!(cfgHas cfg' "prompts") && cfgHas cfg' "drop_keys") with
    | true =>
        have hexec : (parallelExecute outcome cfg' input').1 =
            input'.map (dropRecord (cfgDropKeys cfg')) := by
          unfold parallelExecute
          rw [hf]
          rfl
        have hcand : parallelItemCandidates outcome cfg' input' =
            input'.map (dropRecord (cfgDropKeys cfg')) := by
          unfold parallelItemCandidates
          rw [hf]
          rfl
        refine ⟨?_, ?_, ?_⟩
        · rw [hexec]; simp
        · rw [hexec, hcand]
        · rw [hcand]; simp
    | false =>
        have hcand : parallelItemCandidates outcome cfg' input' =
            (parallelResultsTable outcome cfg' input').map
              (fun o => o.getD []) := by
          unfold parallelItemCandidates
          rw [hf]
          rfl
        have hsub : (parallelExecute outcome cfg' input').1.Sublist
            (parallelItemCandidates outcome cfg' input') := by
          rw [parallelExecute_main outcome cfg' input' hf, hcand]
          refine filterMap_sublist_map _ _ ?_ _
          intro o r hr
          cases o with
          | none => cases hr
          | some x => cases hr; rfl
        refine ⟨?_, hsub, ?_⟩
        · exact le_trans hsub.length_le
            (by rw [hcand]; simp [parallelResultsTable_length])
        · rw [hcand]; simp [parallelResultsTable_length]

/-- C6 counterexample: on the empty record, the single-prompt item processor
passes the template's direct rendering (here the literal `"hello"`) to the
collaborator, while `render_jinja_template` short-circuits to `""` — so the
prompt it passes is not `render_jinja_template`'s output.  The probing
collaborator records the prompt it received inside the emitted record. -/
theorem claim6_counterexample :
    singlePromptPrompt literalJinja "hello" [] = "hello" ∧
    render_jinja_template literalJinja "hello" [] = "" ∧
    (processMapItem literalJinja (fun v => [("prompt_seen", v)])
        (fun s => ⟨Value.str s, 0, true⟩)
        [("prompt", Value.str "hello")] []).1 =
      some [("prompt_seen", Value.str "hello")] ∧
    singlePromptPrompt literalJinja "hello" [] ≠
      render_jinja_template literalJinja "hello" [] :=
  ⟨rfl, rfl, rfl, by decide⟩

/-- C6 amended: the single-prompt item processor renders its prompt with
`Template(prompt).render(input=item)` — no autoescape, no empty-record
short-circuit — so it agrees with `render_jinja_template` exactly on
non-empty records under an engine insensitive to the autoescape flag. -/
theorem claim6_amended_prompt_agreement (engine : JinjaEngine)
    (hesc : ∀ b tmpl data, engine.render b tmpl data =
      engine.render true tmpl data)
    (tmpl : String) (item : Record) (hne : item ≠ []) :
    singlePromptPrompt engine tmpl item =
      render_jinja_template engine tmpl item := by
  unfold singlePromptPrompt render_jinja_template
  rw [hesc false tmpl item,
    if_neg (fun hc => hne (List.isEmpty_iff.mp hc))]

/-- C6 witness: agreement on a non-empty record under the literal engine. -/
theorem claim6_witness :
    singlePromptPrompt literalJinja "hello" [("a", Value.int 1)] =
      render_jinja_template literalJinja "hello" [("a", Value.int 1)] :=
  claim6_amended_prompt_agreement literalJinja (fun _ _ _ => rfl) "hello"
    [("a", Value.int 1)] (List.cons_ne_nil _ _)

/-- C1 counterexample: a configuration whose prompts' `output_keys` union
`{a, b}` is a strict superset of the schema key set `{a}` — so the union
does not equal the key set — yet `ParallelMapOperation.syntax_check`
accepts it.  The claim that the validator rejects exactly when the union
differs from the key set is therefore false. -/
theorem claim1_counterexample :
    parallelSyntaxCheck (fun _ => true) cfgSupersetCovered = Except.ok () ∧
    (coveredKeys cfgSupersetCovered).contains (Value.str "b") = true ∧
    ((cfgSchemaDict cfgSupersetCovered).getD []).map Prod.fst = ["a"] ∧
    ¬(∀ v, v ∈ coveredKeys cfgSupersetCovered ↔
        v ∈ (((cfgSchemaDict cfgSupersetCovered).getD []).map Prod.fst).map
              Value.str) := by
  refine ⟨rfl, rfl, rfl, ?_⟩
  intro h
  have hmem : Value.str "b" ∈ coveredKeys cfgSupersetCovered := by
    show Value.str "b" ∈ [Value.str "a", Value.str "b"]
    simp
  have hb := (h (Value.str "b")).mp hmem
  have hb' : Value.str "b" ∈ [Value.str "a"] := hb
  have heq : Value.str "b" = Value.str "a" := List.mem_singleton.mp hb'
  have : ("b" : String) = "a" :=
    congrArg (fun v => match v with | Value.str s => s | _ => "") heq
  exact absurd this (by decide)

/-- C1 amended: once the pre-coverage checks pass and `output.schema` is a
dict, `ParallelMapOperation.syntax_check` accepts exactly when every schema
key is covered by some prompt's `output_keys` — the union must be a
superset of the schema key set, not equal to it; extra covered keys are
accepted. -/
theorem claim1_amended_coverage (tp : String → Bool) (cfg : Config)
    (s : List (String × Value))
    (h1 : parallelPreChecks tp cfg = Except.ok ())
    (h2 : cfgHas cfg "prompts" = true)
    (h3 : cfgSchemaDict cfg = some s) :
    (parallelSyntaxCheck tp cfg = Except.ok () ↔
      ∀ k ∈ s.map Prod.fst,
        (coveredKeys cfg).contains (Value.str k) = true) := by
  have hchain : parallelSyntaxCheck tp cfg = parallelCoverageCheck cfg := by
    unfold parallelSyntaxCheck
    rw [h1, h2]
    rfl
  obtain ⟨d, ho, hs⟩ : ∃ d, cfg.lookup "output" = some (Value.dict d) ∧
      d.lookup "schema" = some (Value.dict s) := by
    unfold cfgSchemaDict at h3
    split at h3
    · rename_i d hd
      split at h3
      · rename_i s₀ hs₀
        cases h3
        exact ⟨d, hd, hs₀⟩
      · cases h3
    · cases h3
  have hgi : getItemStr (Value.dict d) "schema" = Except.ok (Value.dict s) := by
    show (match List.lookup "schema" d with
          | some w => Except.ok w
          | Option.none => Except.error (PyErr.keyError "schema")) =
        Except.ok (Value.dict s)
    rw [hs]
  have hcov : parallelCoverageCheck cfg =
      (if missingKeys cfg ≠ [] then
        Except.error (PyErr.valueError
          "The following output schema keys are not covered by any prompt")
       else Except.ok ()) := by
    simp only [parallelCoverageCheck, ho, pure_bind]
    rw [hgi]
    rfl
  have hmk : missingKeys cfg =
      (s.map Prod.fst).filter
        (fun k => !((coveredKeys cfg).contains (Value.str k))) := by
    unfold missingKeys
    rw [h3]
    rfl
  rw [hchain, hcov, hmk]
  by_cases hm : (s.map Prod.fst).filter
      (fun k => !((coveredKeys cfg).contains (Value.str k))) = []
  · rw [if_neg (fun hne => hne hm)]
    constructor
    · intro _ k hk
      have hnk := List.filter_eq_nil_iff.mp hm k hk
      cases hc : (coveredKeys cfg).contains (Value.str k) with
      | true => rfl
      | false => exact absurd (by rw [hc]; rfl) hnk
    · intro _
      rfl
  · rw [if_pos hm]
    constructor
    · intro h
      cases h
    · intro hall
      exfalso
      apply hm
      refine List.filter_eq_nil_iff.mpr ?_
      intro k hk
      rw [hall k hk]
      simp

/-- C1 witness: a prompt list exactly covering the one-key schema passes the
coverage characterization. -/
theorem claim1_witness :
    (parallelSyntaxCheck (fun _ => true) cfgOnePrompt = Except.ok () ↔
      ∀ k ∈ ([("a", Value.str "string")] : List (String × Value)).map Prod.fst,
        (coveredKeys cfgOnePrompt).contains (Value.str k) = true) :=
  claim1_amended_coverage (fun _ => true) cfgOnePrompt
    [("a", Value.str "string")] rfl rfl rfl

/-- C9: neither execute mutates a caller-supplied record: in the heap model,
every address that existed before the run holds the same record afterwards,
for both variants, whatever the configuration, the collaborators and the
input addresses.  The multi-prompt reassembly mutates only the per-item
copies it allocates (`input_data[item_index].copy()`), and the single-prompt
merge and the drop-key projections construct new records. -/
theorem claim9_caller_records_unchanged (engine : JinjaEngine)
    (parse : Value → Record) (llm : String → LLMResult)
    (outcome : Nat → Record × Rat) (cfg cfg' : Config)
    (inputIds inputIds' : List Nat) (h0 : Heap) (j : Nat)
    (hj : j < h0.length) :
    hget (mapExecuteH engine parse llm cfg inputIds h0).2.2 j = hget h0 j ∧
    hget (parallelExecuteH outcome cfg' inputIds' h0).2.2 j = hget h0 j :=
  ⟨(mapExecuteH_hext engine parse llm cfg inputIds h0).get hj,
   (parallelExecuteH_hext outcome cfg' inputIds' h0).get hj⟩

/-- C9 witness: a one-record heap run through both variants — including the
multi-prompt update path, which merges `a` into the copy — leaves the
original record at address 0 unchanged. -/
theorem claim9_witness :
    hget (mapExecuteH literalJinja (fun _ => [("echo", Value.int 2)])
        (fun _ => ⟨Value.none, 0, true⟩) cfgSingleEcho [0]
        [[("x", Value.int 1)]]).2.2 0 = [("x", Value.int 1)] ∧
    hget (parallelExecuteH (fun _ => ([("a", Value.int 2)], 0)) cfgOnePrompt
        [0] [[("x", Value.int 1)]]).2.2 0 = [("x", Value.int 1)] := by
  have h := claim9_caller_records_unchanged literalJinja
    (fun _ => [("echo", Value.int 2)]) (fun _ => ⟨Value.none, 0, true⟩)
    (fun _ => ([("a", Value.int 2)], 0)) cfgSingleEcho cfgOnePrompt
    [0] [0] [[("x", Value.int 1)]] 0 (by decide)
  exact ⟨h.1.trans rfl, h.2.trans rfl⟩

end DocetlMap
